import Mathlib

/-!
Verification of the keeweb-connect encrypted protocol layer
(`src/background/protocol/protocol-impl.ts`) and the connection /
request-queue state machine (`src/background/backend.ts`).

Modelling conventions:
* Byte sequences are `List Nat` with the bound `b < 256` carried as a
  hypothesis where the arithmetic needs it; `Uint8Array` element stores
  truncate with an explicit `% 256`.
* `toBase64` / `fromBase64` live in `background/utils`, which is not part of
  the sources; the spec fixes only that they are a base64 encode/decode pair
  used as a transparent transport encoding. We therefore represent a
  base64-encoded wire field directly by the byte sequence it encodes, so the
  encoder is the identity embedding and string comparison of canonical
  encodings coincides with byte-sequence comparison. A wire field that may be
  absent (`undefined` in TypeScript) is an `Option`.
* Fallible TypeScript code (throwing) is modelled with `Except ProtError`.
* The tweetnacl box primitives and `JSON.parse`/`JSON.stringify` are external
  libraries; they enter as explicit function parameters (`CryptoBox`), with
  the behaviours the code relies on (`box.open` returning `null` on
  authentication failure, `box` throwing a `TypeError` when a key is
  `undefined`) reflected in how the call sites handle them.
-/

namespace KeeWebConnect

/-- Byte sequences (`Uint8Array` contents). -/
abbrev Bytes := List Nat

/-- Every element of the list is a byte value. -/
def IsBytes (l : Bytes) : Prop := ∀ b ∈ l, b < 256

instance (l : Bytes) : Decidable (IsBytes l) := by
  unfold IsBytes; infer_instance

/-- Value of a byte sequence read as a little-endian counter. -/
def fromLE : Bytes → Nat
  | [] => 0
  | b :: rest => b + 256 * fromLE rest

/-- Error outcomes of the protocol layer. The TypeScript code signals all of
them by throwing; the taxonomy of the spec (§7) names the categories. -/
inductive ProtError where
  /-- `throw new Error('Bad nonce in response')` in `validateNonce`. -/
  | badNonce : ProtError
  /-- `fieldFromBase64` throwing on an empty or malformed base64 field. -/
  | decodeError (field : String) : ProtError
  /-- decryption/authentication failure: `tweetnaclBox.open` returns `null`
  and the subsequent `TextDecoder.decode(null)` throws. -/
  | decryptError : ProtError
  /-- `JSON.parse` throwing on bytes that are not valid JSON. -/
  | jsonError : ProtError
  /-- peer-reported error surfaced by `checkResponseError`. -/
  | applicationError (message : String) : ProtError
  /-- operation requiring the peer public key attempted before the handshake:
  `tweetnaclBox` throws a `TypeError` when `_keewebPublicKey` is `undefined`
  (spec §7 calls this category `IllegalStateError`). -/
  | illegalState : ProtError
deriving DecidableEq, Repr

/-- Wire shape of an encrypted request
(`KeeWebConnectEncryptedRequest`): all four fields are present. -/
structure EncryptedRequest where
  action : String
  message : Bytes
  nonce : Bytes
  clientID : String
deriving DecidableEq, Repr

/-- Wire shape of an encrypted response
(`KeeWebConnectEncryptedResponse`): `message` and `nonce` may be absent
(`none`), and a present-but-empty string is `some []`. -/
structure EncryptedResponse where
  message : Option Bytes
  nonce : Option Bytes
  error : Option String
  errorCode : Option String
deriving DecidableEq, Repr

/-- Decrypted response payload after `JSON.parse`: only the fields the
protocol layer inspects (`error`, `errorCode`) are modelled, plus the rest of
the payload abstracted as a string. -/
structure ResponsePayload where
  error : Option String
  errorCode : Option String
  body : String
deriving DecidableEq, Repr

/-- External crypto and serialization collaborators (tweetnacl, TextEncoder,
JSON): `box data nonce pk sk` is authenticated encryption,
`boxOpen msg nonce pk sk` is authenticated decryption returning `none` on
failure (tweetnacl returns `null`), `parsePayload` is
TextDecoder + `JSON.parse` returning `none` when parsing throws. -/
structure CryptoBox where
  box : Bytes → Bytes → Bytes → Bytes → Bytes
  boxOpen : Bytes → Bytes → Bytes → Bytes → Option Bytes
  parsePayload : Bytes → Option ResponsePayload

/-- Carry-propagating increment from `validateNonce`'s loop
(`c += nonceData[i]; nonceData[i] = c; c >>= 8`): the `Uint8Array` store
truncates to a byte, the carry keeps the untruncated high part. -/
def incrementBytes (c : Nat) : Bytes → Bytes
  | [] => []
  | b :: rest => (c + b) % 256 :: incrementBytes ((c + b) / 256) rest

/-- Nonce successor: the loop of `validateNonce` run with initial carry 1. -/
def nonceSuccessor (nonce : Bytes) : Bytes :=
  incrementBytes 1 nonce

/-- `ProtocolImpl.validateNonce`: recompute the successor of the request
nonce and compare it with the nonce claimed by the response (string
comparison of canonical encodings, hence byte-sequence comparison here; an
absent response nonce compares unequal, as `undefined !== expected`). -/
def validateNonce (nonce : Bytes) (incrementedNonce : Option Bytes) :
    Except ProtError Unit :=
  let expected := nonceSuccessor nonce
  if some expected = incrementedNonce then .ok () else .error .badNonce

/-- `ProtocolImpl.fieldFromBase64`: throws on an absent or empty field
(`if (!base64)`); under the identity encoding a present nonempty field
decodes to itself. -/
def fieldFromBase64 (base64 : Option Bytes) (fieldName : String) :
    Except ProtError Bytes :=
  match base64 with
  | none => .error (.decodeError fieldName)
  | some bs => if bs = [] then .error (.decodeError fieldName) else .ok bs

/-- `ProtocolImpl.checkResponseError` applied to a decrypted payload: a
truthy `error` field (present and nonempty) throws, carrying
`[code=<errorCode>] <error>` when a truthy code is present. -/
def checkResponseError (payload : ResponsePayload) :
    Except ProtError ResponsePayload :=
  match payload.error with
  | none => .ok payload
  | some e =>
    if e = "" then .ok payload
    else
      let codeStr := match payload.errorCode with
        | none => ""
        | some c => if c = "" then "" else "[code=" ++ c ++ "] "
      .error (.applicationError (codeStr ++ e))

/-- `ProtocolImpl.decryptResponsePayload`: early-return `undefined` on a
falsy `response.message`, validate the nonce successor, base64-decode both
fields, authenticated-decrypt, parse, and surface a peer-reported error.
`ownSecretKey` is `_ownKeys.secretKey`; `keewebPublicKey` is
`_keewebPublicKey`, absent before the handshake (tweetnacl throws a
`TypeError` on an `undefined` key, modelled as `illegalState`). -/
def decryptResponsePayload (C : CryptoBox) (ownSecretKey : Bytes)
    (keewebPublicKey : Option Bytes) (request : EncryptedRequest)
    (response : EncryptedResponse) :
    Except ProtError (Option ResponsePayload) := do
  match response.message with
  | none => return none
  | some m =>
    if m = [] then return none
    else do
      validateNonce request.nonce response.nonce
      let message ← fieldFromBase64 response.message "message"
      let nonce ← fieldFromBase64 response.nonce "nonce"
      match keewebPublicKey with
      | none => throw .illegalState
      | some pk =>
        match C.boxOpen message nonce pk ownSecretKey with
        | none => throw .decryptError
        | some data =>
          match C.parsePayload data with
          | none => throw .jsonError
          | some payload => return some (← checkResponseError payload)

/-- `ProtocolImpl.makeEncryptedRequest`: serialize the payload, encrypt it
under (request nonce, peer public key, own secret key), and build the
envelope. `payloadBytes` stands for `TextEncoder().encode(JSON.stringify
payload)` and `nonce` for the freshly generated random nonce. With
`_keewebPublicKey` unset, `tweetnaclBox` throws before anything is built. -/
def makeEncryptedRequest (C : CryptoBox) (ownSecretKey : Bytes)
    (keewebPublicKey : Option Bytes) (clientId : String) (action : String)
    (payloadBytes : Bytes) (nonce : Bytes) :
    Except ProtError EncryptedRequest :=
  match keewebPublicKey with
  | none => .error .illegalState
  | some pk =>
    .ok { action := action
          message := C.box payloadBytes nonce pk ownSecretKey
          nonce := nonce
          clientID := clientId }

/-- Effects of the protocol layer visible to its transport. -/
inductive SendEffect where
  | sent (r : EncryptedRequest) : SendEffect
deriving DecidableEq, Repr

/-- Shape of `getDatabaseHash`-style encrypted operations up to the send:
`makeEncryptedRequest` first, and only when it returns does
`this.request(request)` hand the envelope to the transport. An exception in
`makeEncryptedRequest` therefore produces no send. -/
def sendEncryptedRequest (C : CryptoBox) (ownSecretKey : Bytes)
    (keewebPublicKey : Option Bytes) (clientId : String) (action : String)
    (payloadBytes : Bytes) (nonce : Bytes) :
    Except ProtError EncryptedRequest × List SendEffect :=
  match makeEncryptedRequest C ownSecretKey keewebPublicKey clientId action
      payloadBytes nonce with
  | .error e => (.error e, [])
  | .ok req => (.ok req, [.sent req])

end KeeWebConnect

namespace KeeWebConnect.Backend

/-!
Embedding of `src/background/backend.ts`. The class fields that the queue
and connection logic read or write become a `BackendState` record; the
`Promise` attached to each request is identified by a numeric id, and
resolving/rejecting it, talking to the transport, and emitting events are
recorded as an `Effect` list. JavaScript timers are modelled by the set of
armed timer ids (`timers`): `window.setTimeout` arms one, `clearTimeout`
disarms it, and a timeout callback can only run while its id is armed.
The code is single-threaded, so each handler runs to completion; every
handler is a pure function `BackendState → BackendState × List Effect`.
-/

/-- Modelled from the spec: `BackendConnectionState` is imported from
`common/backend-connection-state`, which is not among the sources; spec §3
fixes it as the enum `{Initializing, ReadyToConnect, Connecting, Connected,
Error}`. -/
inductive ConnState where
  | Initializing : ConnState
  | ReadyToConnect : ConnState
  | Connecting : ConnState
  | Connected : ConnState
  | Error : ConnState
deriving DecidableEq, Repr

/-- Outbound request as the queue sees it (`KeeWebConnectRequest`): only the
`action` is inspected by the queue; `tag` keeps distinct submissions
distinguishable. -/
structure KWRequest where
  action : String
  tag : Nat
deriving DecidableEq, Repr

/-- Inbound transport message (`KeeWebConnectResponse`): the queue inspects
only the optional `action` field; `body` stands for the rest. -/
structure KWResponse where
  action : Option String
  body : Nat
deriving DecidableEq, Repr

/-- `RequestQueueItem` of `backend.ts`: the outbound request plus the
identity `id` of its promise/timer (`resolve`, `reject` and `timeout` are the
per-item closures; one id names all three). -/
structure RequestQueueItem where
  request : KWRequest
  id : Nat
deriving DecidableEq, Repr

/-- Observable actions of a handler run. -/
inductive Effect where
  /-- `this._transport?.request(request)` in `sendTransportRequest`. -/
  | transportRequest (r : KWRequest) : Effect
  /-- `await this._transport.connect()` in `connect`. -/
  | transportConnect : Effect
  /-- `await this._protocol.changePublicKeys()` in `connect`. -/
  | handshake : Effect
  /-- the promise of request `id` resolved with `msg`. -/
  | resolved (id : Nat) (msg : KWResponse) : Effect
  /-- the promise of request `id` rejected with message `err`. -/
  | rejected (id : Nat) (err : String) : Effect
  /-- `clearTimeout` on the timer of request `id`. -/
  | timerCleared (id : Nat) : Effect
  /-- `this.emit('state-changed')`. -/
  | stateChanged : Effect
  /-- `this.emit('connect-finished', e?)`. -/
  | connectFinished (err : Option String) : Effect
  /-- one `once('connect-finished')` waiter resolved (`err = none`) or
  rejected (`err = some e`) by that emission. -/
  | waiterNotified (err : Option String) : Effect
  /-- `this.focusKeeWebTab()`. -/
  | focusKeeWeb : Effect
deriving DecidableEq, Repr

/-- Mutable fields of the `Backend` class that the modelled handlers touch.
`transport` records whether `_transport` is set; `waiters` counts the
`once('connect-finished')` listeners registered by `connect()` calls that
joined an in-flight attempt. -/
structure BackendState where
  state : ConnState
  connectionError : Option String
  requestQueue : List RequestQueueItem
  currentRequest : Option RequestQueueItem
  transport : Bool
  timers : List Nat
  waiters : Nat
deriving DecidableEq, Repr

/-- Number of requests in flight: `_currentRequest` is a single optional
slot. -/
def inFlightCount (s : BackendState) : Nat :=
  match s.currentRequest with
  | none => 0
  | some _ => 1

/-- `Backend.setState`: assign and emit `state-changed` only when the value
actually changes. -/
def setState (s : BackendState) (st : ConnState) :
    BackendState × List Effect :=
  if s.state ≠ st then ({ s with state := st }, [.stateChanged])
  else (s, [])

/-- `Backend.sendTransportRequest`: `this._transport?.request(request)` —
a send happens only when a transport is set. -/
def sendTransportRequest (s : BackendState) (r : KWRequest) : List Effect :=
  if s.transport then [.transportRequest r] else []

/-- `Backend.processRequestQueue`: return if a request is in flight or the
queue is empty; while `Connecting` only a `change-public-keys` head may go
out; any state other than `Connecting`/`Connected` leaves the queue
untouched; otherwise shift the head into the in-flight slot and send it. -/
def processRequestQueue (s : BackendState) : BackendState × List Effect :=
  match s.currentRequest, s.requestQueue with
  | some _, _ => (s, [])
  | none, [] => (s, [])
  | none, item :: rest =>
    if s.state = .Connecting ∧ item.request.action ≠ "change-public-keys" then
      (s, [])
    else if s.state ≠ .Connecting ∧ s.state ≠ .Connected then
      (s, [])
    else
      ({ s with currentRequest := some item, requestQueue := rest },
        sendTransportRequest s item.request)

/-- Synchronous prefix of `Backend.request`: create the item, arm its timer,
push it at the back of the queue. -/
def enqueueRequest (s : BackendState) (r : KWRequest) (id : Nat) :
    BackendState :=
  { s with requestQueue := s.requestQueue ++ [{ request := r, id := id }]
           timers := id :: s.timers }

/-- `Backend.request`: enqueue then drain. -/
def requestCall (s : BackendState) (r : KWRequest) (id : Nat) :
    BackendState × List Effect :=
  processRequestQueue (enqueueRequest s r id)

/-- Localized message of `chrome.i18n.getMessage('errorRequestTimeout')`,
treated as an opaque constant. -/
def timeoutErrorMessage : String := "errorRequestTimeout"

/-- The timeout callback armed in `Backend.request`: unconditionally clears
the in-flight slot (`this._currentRequest = undefined`) and rejects the
promise of the request whose timer fired; the item is not removed from
`_requestQueue` and the queue is not drained. Runs only while `id` is
armed. -/
def timeoutFired (s : BackendState) (id : Nat) :
    BackendState × List Effect :=
  ({ s with currentRequest := none, timers := s.timers.erase id },
    [.rejected id timeoutErrorMessage])

/-- `Backend.transportMessage`: unsolicited notifications short-circuit;
otherwise the message resolves whichever request is currently in flight (its
timer is cleared, the slot emptied) and the queue is drained again. -/
def transportMessage (s : BackendState) (msg : KWResponse) :
    BackendState × List Effect :=
  if msg.action = some "database-locked" then (s, [])
  else if msg.action = some "database-unlocked" then (s, [])
  else if msg.action = some "attention-required" then (s, [.focusKeeWeb])
  else
    match s.currentRequest with
    | some cr =>
      let s1 := { s with currentRequest := none
                         timers := s.timers.erase cr.id }
      ((processRequestQueue s1).1,
        [.timerCleared cr.id, .resolved cr.id msg] ++ (processRequestQueue s1).2)
    | none => processRequestQueue s

/-- `Backend.rejectPendingRequests`: reject the in-flight request (clearing
its timer) and every queued one with the same error, then empty the queue.
Queued items' timers are not cleared (the code clears only
`this._currentRequest.timeout`). -/
def rejectPendingRequests (s : BackendState) (err : String) :
    BackendState × List Effect :=
  let (s1, e1) : BackendState × List Effect :=
    match s.currentRequest with
    | some cr =>
      ({ s with currentRequest := none, timers := s.timers.erase cr.id },
        [.timerCleared cr.id, .rejected cr.id err])
    | none => (s, [])
  ({ s1 with requestQueue := [] },
    e1 ++ s1.requestQueue.map (fun it => .rejected it.id err))

/-- Synchronous prefix of `Backend.connect`: already `Connected` resolves
immediately with no side effect; already `Connecting` only registers a
`once('connect-finished')` waiter; otherwise reject pending requests, clear
the error, move to `Connecting`, set up transport and protocol, and start
the single attempt (`transport.connect()` then `changePublicKeys()`). -/
def connectEnter (s : BackendState) : BackendState × List Effect :=
  if s.state = .Connected then (s, [])
  else if s.state = .Connecting then
    ({ s with waiters := s.waiters + 1 }, [])
  else
    let s2 := { (rejectPendingRequests s "Reconnecting").1 with
                connectionError := none }
    ({ (setState s2 .Connecting).1 with transport := true },
      (rejectPendingRequests s "Reconnecting").2
        ++ (setState s2 .Connecting).2
        ++ [.transportConnect, .handshake])

/-- Completion of the attempt started by `connectEnter`: on success move to
`Connected`, on failure record the error and move to `Error`; in both cases
emit `connect-finished`, which fires every registered waiter with that same
outcome. -/
def connectFinish (s : BackendState) (err : Option String) :
    BackendState × List Effect :=
  match err with
  | none =>
    ({ (setState s .Connected).1 with waiters := 0 },
      (setState s .Connected).2 ++ [.connectFinished none]
         ++ List.replicate s.waiters (.waiterNotified none))
  | some msg =>
    ({ (setState { s with connectionError := some msg } .Error).1 with
        waiters := 0 },
      (setState { s with connectionError := some msg } .Error).2
         ++ [.connectFinished (some msg)]
         ++ List.replicate s.waiters (.waiterNotified (some msg)))

/-- `n` successive `connect()` entries (concurrent callers interleaved
before the attempt finishes), with their accumulated effects. -/
def connectMany (s : BackendState) : Nat → BackendState × List Effect
  | 0 => (s, [])
  | n + 1 =>
    let (s1, e1) := connectEnter s
    let (s2, e2) := connectMany s1 n
    (s2, e1 ++ e2)

/-- Number of `Transport.connect` invocations in an effect list. -/
def countConnects (l : List Effect) : Nat :=
  (l.filter (fun e => e = .transportConnect)).length

end KeeWebConnect.Backend

namespace KeeWebConnect

/-! ### Arithmetic of the carry-propagating nonce increment -/

theorem mod_mul_step (r t M : Nat) (hr : r < 256) (hM : 0 < M) :
    (r + 256 * t) % (256 * M) = r + 256 * (t % M) := by
  have h1 : r + 256 * t = r + 256 * (t % M) + 256 * M * (t / M) := by
    conv_lhs => rw [← Nat.mod_add_div t M]
    ring
  rw [h1, Nat.add_mul_mod_self_left]
  have h2 : t % M < M := Nat.mod_lt t hM
  exact Nat.mod_eq_of_lt (by omega)

theorem incrementBytes_length (c : Nat) (N : Bytes) :
    (incrementBytes c N).length = N.length := by
  induction N generalizing c with
  | nil => rfl
  | cons b rest ih => simp [incrementBytes, ih]

theorem incrementBytes_isBytes (c : Nat) (N : Bytes) :
    IsBytes (incrementBytes c N) := by
  induction N generalizing c with
  | nil => intro b hb; simp [incrementBytes] at hb
  | cons b rest ih =>
    intro x hx
    simp only [incrementBytes, List.mem_cons] at hx
    rcases hx with hx | hx
    · subst hx; exact Nat.mod_lt _ (by norm_num)
    · exact ih _ x hx

theorem fromLE_incrementBytes (N : Bytes) (c : Nat) (hN : IsBytes N)
    (hc : c ≤ 256) :
    fromLE (incrementBytes c N) = (fromLE N + c) % 2 ^ (8 * N.length) := by
  induction N generalizing c with
  | nil => simp [incrementBytes, fromLE, Nat.mod_one]
  | cons b rest ih =>
    have hb : b < 256 := hN b (by simp)
    have hrest : IsBytes rest := fun x hx => hN x (by simp [hx])
    have hc' : (c + b) / 256 ≤ 256 := by omega
    have hM : 0 < 2 ^ (8 * rest.length) := Nat.pos_pow_of_pos _ (by norm_num)
    have hr : (c + b) % 256 < 256 := Nat.mod_lt _ (by norm_num)
    calc fromLE (incrementBytes c (b :: rest))
        = (c + b) % 256
            + 256 * ((fromLE rest + (c + b) / 256) % 2 ^ (8 * rest.length)) := by
          simp [incrementBytes, fromLE, ih ((c + b) / 256) hrest hc']
      _ = ((c + b) % 256 + 256 * (fromLE rest + (c + b) / 256))
            % (256 * 2 ^ (8 * rest.length)) := by
          rw [mod_mul_step _ _ _ hr hM]
      _ = (fromLE (b :: rest) + c) % 2 ^ (8 * (b :: rest).length) := by
          have hsplit : (c + b) % 256 + 256 * (fromLE rest + (c + b) / 256)
              = b + 256 * fromLE rest + c := by
            have := Nat.mod_add_div (c + b) 256
            ring_nf
            omega
          have hpow : 2 ^ (8 * (b :: rest).length)
              = 256 * 2 ^ (8 * rest.length) := by
            simp only [List.length_cons, Nat.mul_add, Nat.mul_one, pow_add]
            ring
          rw [hsplit, hpow]
          rfl

theorem incrementBytes_replicate_ff (n : Nat) :
    incrementBytes 1 (List.replicate n 255) = List.replicate n 0 := by
  induction n with
  | zero => rfl
  | succ k ih => simp [List.replicate, incrementBytes, ih]

/-- C2: the nonce successor computed by `validateNonce` reads the nonce as a
little-endian counter and adds 1 with carry propagated across all bytes, the
final carry dropped (the value is taken modulo `2 ^ (8·length)`); the length
is preserved, the output is again a byte sequence, and the successor of an
all-`0xFF` sequence is the all-zero sequence of the same length. Determinism
holds because `nonceSuccessor` is a function of the byte sequence alone. -/
theorem nonceSuccessor_little_endian_plus_one (N : Bytes) (h : IsBytes N) :
    fromLE (nonceSuccessor N) = (fromLE N + 1) % 2 ^ (8 * N.length)
    ∧ (nonceSuccessor N).length = N.length
    ∧ IsBytes (nonceSuccessor N)
    ∧ ∀ n : Nat, nonceSuccessor (List.replicate n 255) = List.replicate n 0 := by
  refine ⟨fromLE_incrementBytes N 1 h (by norm_num),
    incrementBytes_length 1 N, incrementBytes_isBytes 1 N, ?_⟩
  intro n
  exact incrementBytes_replicate_ff n

/-- Witness for C2 at the concrete nonce `[255, 255, 0]`:
`0xFF 0xFF 0x00` is `65535` little-endian, and its successor is
`0x00 0x00 0x01`, i.e. `65536`. -/
theorem nonceSuccessor_little_endian_plus_one_witness :
    IsBytes [255, 255, 0]
    ∧ (fromLE (nonceSuccessor [255, 255, 0])
          = (fromLE [255, 255, 0] + 1) % 2 ^ (8 * [255, 255, 0].length)
        ∧ (nonceSuccessor [255, 255, 0]).length = [255, 255, 0].length
        ∧ IsBytes (nonceSuccessor [255, 255, 0])
        ∧ ∀ n : Nat,
            nonceSuccessor (List.replicate n 255) = List.replicate n 0) :=
  ⟨by decide, nonceSuccessor_little_endian_plus_one [255, 255, 0] (by decide)⟩

/-! ### Early return on a falsy `response.message` -/

/-- C8: a response whose `message` field is absent (`undefined`) or the
empty string is falsy for `if (!response.message)`, so
`decryptResponsePayload` returns `undefined` (`none`) without failing,
whatever the remaining fields hold. -/
theorem decrypt_no_message_returns_none (C : CryptoBox) (sk : Bytes)
    (pkq : Option Bytes) (req : EncryptedRequest) (resp : EncryptedResponse)
    (h : resp.message = none ∨ resp.message = some []) :
    decryptResponsePayload C sk pkq req resp = .ok none := by
  rcases h with h | h <;>
    simp [decryptResponsePayload, h, pure, Except.pure]

/-- Witness for C8 on a response with an absent message and junk elsewhere. -/
theorem decrypt_no_message_returns_none_witness :
    ({ message := none, nonce := some [1, 2], error := some "boom"
       errorCode := some "X" : EncryptedResponse }).message = none
    ∧ decryptResponsePayload
        { box := fun data _ _ _ => data
          boxOpen := fun msg _ _ _ => some msg
          parsePayload := fun _ => none }
        [7]
        (some [9])
        { action := "get-logins", message := [3], nonce := [0], clientID := "id" }
        { message := none, nonce := some [1, 2], error := some "boom"
          errorCode := some "X" }
        = .ok none :=
  ⟨rfl, decrypt_no_message_returns_none _ _ _ _ _ (Or.inl rfl)⟩

/-- C9: when `response.message` is absent the early return fires before
`validateNonce` is ever reached, so the response is accepted as `none` even
though its `nonce` field is not the successor of the request's nonce (or is
missing altogether). -/
theorem decrypt_no_message_skips_nonce_check (C : CryptoBox) (sk : Bytes)
    (pkq : Option Bytes) (req : EncryptedRequest)
    (nonceField : Option Bytes) (err errc : Option String)
    (hbad : nonceField ≠ some (nonceSuccessor req.nonce)) :
    decryptResponsePayload C sk pkq req
      { message := none, nonce := nonceField, error := err, errorCode := errc }
      = .ok none := by
  simp [decryptResponsePayload, pure, Except.pure]

/-- Witness for C9: a message-less response with an absent nonce (so
certainly not the successor of `[5]`) is accepted as `none`. -/
theorem decrypt_no_message_skips_nonce_check_witness :
    (none ≠ some (nonceSuccessor [5]))
    ∧ decryptResponsePayload
        { box := fun data _ _ _ => data
          boxOpen := fun _ _ _ _ => none
          parsePayload := fun _ => none }
        [7]
        none
        { action := "ping", message := [3], nonce := [5], clientID := "id" }
        { message := none, nonce := none, error := none, errorCode := none }
        = .ok none :=
  ⟨by decide,
    decrypt_no_message_skips_nonce_check _ _ _ _ none none none (by decide)⟩

/-! ### Fail-fast before the handshake -/

/-- C7: with `_keewebPublicKey` unset (no completed handshake),
`makeEncryptedRequest` fails immediately (tweetnacl's argument check throws,
the category the spec calls `IllegalStateError`), and the surrounding
encrypted operation therefore performs no send: the request is neither
queued nor handed to the transport. -/
theorem encrypted_request_before_handshake_fails (C : CryptoBox) (sk : Bytes)
    (clientId action : String) (payloadBytes nonce : Bytes) :
    makeEncryptedRequest C sk none clientId action payloadBytes nonce
        = .error .illegalState
    ∧ sendEncryptedRequest C sk none clientId action payloadBytes nonce
        = (.error .illegalState, []) := by
  constructor <;> rfl

/-! ### Nonce validation on responses with a message -/

/-- C1 (amended): for every encrypted request and every response carrying a
non-empty `message` field, `decryptResponsePayload` fails with the bad-nonce
protocol error if and only if the response's `nonce` field differs from the
successor of the request's nonce; in particular a response whose ciphertext
would decrypt successfully but whose nonce is wrong is still rejected. (A
response whose `message` field is present but empty bypasses the check, see
the counterexample.) -/
theorem decrypt_nonempty_message_bad_nonce_iff (C : CryptoBox) (sk : Bytes)
    (pkq : Option Bytes) (req : EncryptedRequest) (resp : EncryptedResponse)
    (m : Bytes) (hmsg : resp.message = some m) (hm : m ≠ []) :
    decryptResponsePayload C sk pkq req resp = .error .badNonce
      ↔ resp.nonce ≠ some (nonceSuccessor req.nonce) := by
  obtain ⟨msgF, nonceF, errF, codeF⟩ := resp
  have hmsg' : msgF = some m := hmsg
  subst hmsg'
  by_cases hn : nonceF = some (nonceSuccessor req.nonce)
  · subst hn
    simp only [decryptResponsePayload, validateNonce, fieldFromBase64,
      if_neg hm, ne_eq, not_true_eq_false, iff_false]
    simp only [if_pos rfl, Bind.bind, Except.bind]
    by_cases hs : nonceSuccessor req.nonce = []
    · simp [hs]
    · simp only [if_neg hm, if_neg hs]
      cases pkq with
      | none => simp [throw, throwThe, MonadExceptOf.throw]
      | some pk =>
        cases hbo : C.boxOpen m (nonceSuccessor req.nonce) pk sk with
        | none => simp [hbo, throw, throwThe, MonadExceptOf.throw]
        | some data =>
          cases hp : C.parsePayload data with
          | none => simp [hbo, hp, throw, throwThe, MonadExceptOf.throw]
          | some payload =>
            cases he : payload.error with
            | none => simp [hbo, hp, checkResponseError, he, pure, Except.pure]
            | some e =>
              by_cases he' : e = "" <;>
                simp [hbo, hp, checkResponseError, he, he', pure, Except.pure]
  · have hv : validateNonce req.nonce nonceF = .error .badNonce := by
      simp only [validateNonce]
      rw [if_neg (fun h => hn h.symm)]
    simp [decryptResponsePayload, if_neg hm, hv, Bind.bind, Except.bind, hn]

/-- Concrete request for settling C1. -/
def c1req : EncryptedRequest :=
  { action := "get-logins", message := [1], nonce := [5], clientID := "c" }

/-- Concrete crypto collaborator for settling C1: decryption always
succeeds and the payload parses to an error-free response. -/
def c1crypto : CryptoBox :=
  { box := fun data _ _ _ => data
    boxOpen := fun msg _ _ _ => some msg
    parsePayload := fun _ => some { error := none, errorCode := none, body := "" } }

/-- Counterexample to C1 as stated: this response carries a `message` field
(the empty string) and its `nonce` field (absent) is not the successor of the
request's nonce, yet `decryptResponsePayload` does not fail with a bad-nonce
error — it returns `none` — although the crypto in use here would have
decrypted the ciphertext successfully. The check `if (!response.message)`
treats an empty message like an absent one and returns before the nonce is
ever validated. -/
theorem decrypt_bad_nonce_iff_cex :
    ({ message := some [], nonce := none, error := none
       errorCode := none : EncryptedResponse }).message = some []
    ∧ ({ message := some [], nonce := none, error := none
         errorCode := none : EncryptedResponse }).nonce
        ≠ some (nonceSuccessor c1req.nonce)
    ∧ decryptResponsePayload c1crypto [7] (some [8]) c1req
        { message := some [], nonce := none, error := none, errorCode := none }
        = .ok none := by
  refine ⟨rfl, by decide, rfl⟩

/-- Witness for the amended C1 at a concrete input: request nonce `[5]`,
response nonce `[9]` (not the successor `[6]`), non-empty message. -/
theorem decrypt_nonempty_message_bad_nonce_iff_witness :
    (({ message := some [1], nonce := some [9], error := none
        errorCode := none : EncryptedResponse }).message = some [1]
      ∧ ([1] : Bytes) ≠ [])
    ∧ (decryptResponsePayload c1crypto [7] (some [8]) c1req
          { message := some [1], nonce := some [9], error := none
            errorCode := none }
          = .error .badNonce
        ↔ ({ message := some [1], nonce := some [9], error := none
             errorCode := none : EncryptedResponse }).nonce
            ≠ some (nonceSuccessor c1req.nonce)) :=
  ⟨⟨rfl, by decide⟩,
    decrypt_nonempty_message_bad_nonce_iff c1crypto [7] (some [8]) c1req
      _ [1] rfl (by decide)⟩

/-- C6: when the nonce check passes and both base64 fields decode (they are
present and non-empty), but authenticated decryption under (own private key,
peer public key, decoded nonce) fails — `tweetnaclBox.open` returns `null` —
`decryptResponsePayload` fails with the decrypt error instead of returning
any payload. -/
theorem decrypt_auth_failure_fails (C : CryptoBox) (sk pk : Bytes)
    (req : EncryptedRequest) (resp : EncryptedResponse) (m : Bytes)
    (hmsg : resp.message = some m) (hm : m ≠ [])
    (hnonce : resp.nonce = some (nonceSuccessor req.nonce))
    (hsucc : nonceSuccessor req.nonce ≠ [])
    (hopen : C.boxOpen m (nonceSuccessor req.nonce) pk sk = none) :
    decryptResponsePayload C sk (some pk) req resp = .error .decryptError := by
  obtain ⟨msgF, nonceF, errF, codeF⟩ := resp
  have hmsg' : msgF = some m := hmsg
  have hnonce' : nonceF = some (nonceSuccessor req.nonce) := hnonce
  subst hmsg'
  subst hnonce'
  simp only [decryptResponsePayload, validateNonce, fieldFromBase64,
    if_neg hm, if_pos rfl, if_neg hsucc, Bind.bind, Except.bind]
  simp [hopen, throw, throwThe, MonadExceptOf.throw]

/-- Witness for C6: request nonce `[5]`, response nonce `[6]` (the correct
successor), non-empty message, and a crypto collaborator whose
authenticated decryption always fails. -/
theorem decrypt_auth_failure_fails_witness :
    (({ message := some [1], nonce := some [6], error := none
        errorCode := none : EncryptedResponse }).message = some [1]
      ∧ ([1] : Bytes) ≠ []
      ∧ ({ message := some [1], nonce := some [6], error := none
           errorCode := none : EncryptedResponse }).nonce
          = some (nonceSuccessor [5])
      ∧ nonceSuccessor [5] ≠ [])
    ∧ decryptResponsePayload
        { box := fun data _ _ _ => data
          boxOpen := fun _ _ _ _ => none
          parsePayload := fun _ => some { error := none, errorCode := none, body := "" } }
        [7] (some [8])
        { action := "ping", message := [2], nonce := [5], clientID := "c" }
        { message := some [1], nonce := some [6], error := none, errorCode := none }
        = .error .decryptError :=
  ⟨⟨rfl, by decide, by decide, by decide⟩,
    decrypt_auth_failure_fails _ [7] [8] _ _ [1] rfl (by decide) (by decide)
      (by decide) rfl⟩

end KeeWebConnect

namespace KeeWebConnect.Backend

/-- C10: `setState` emits the `state-changed` notification iff the assigned
value differs from the current one; assigning the current value changes
nothing and emits nothing. -/
theorem setState_state_changed_iff (s : BackendState) (st : ConnState) :
    (Effect.stateChanged ∈ (setState s st).2 ↔ st ≠ s.state)
    ∧ (st = s.state → setState s st = (s, [])) := by
  unfold setState
  by_cases h : s.state = st
  · simp [h]
  · simp [h, Ne.symm h]

/-- Concrete state for settling C10. -/
def c10s : BackendState :=
  { state := .ReadyToConnect, connectionError := none, requestQueue := []
    currentRequest := none, transport := false, timers := [], waiters := 0 }

/-- Witness for C10: assigning a different value emits iff it differs, and
re-assigning the current value is a no-op. -/
theorem setState_state_changed_iff_witness :
    (Effect.stateChanged ∈ (setState c10s ConnState.Connected).2
      ↔ ConnState.Connected ≠ c10s.state)
    ∧ setState c10s ConnState.ReadyToConnect = (c10s, []) :=
  ⟨(setState_state_changed_iff c10s ConnState.Connected).1,
    (setState_state_changed_iff c10s ConnState.ReadyToConnect).2 rfl⟩

/-! ### Request-queue discipline -/

theorem inFlightCount_le_one (s : BackendState) : inFlightCount s ≤ 1 := by
  unfold inFlightCount
  cases s.currentRequest <;> simp

/-- C3: the in-flight slot holds at most one request in any state;
`processRequestQueue` dispatches the head of a non-empty queue to the
transport exactly when no request is in flight and the state is `Connected`,
or the state is `Connecting` and the head's action is `change-public-keys`;
dispatch removes exactly the head (FIFO), and `request` enqueues at the
tail (FIFO submission order). -/
theorem processRequestQueue_dispatch_spec (s : BackendState)
    (item : RequestQueueItem) (rest : List RequestQueueItem)
    (hq : s.requestQueue = item :: rest) (htr : s.transport = true) :
    (Effect.transportRequest item.request ∈ (processRequestQueue s).2
      ↔ s.currentRequest = none
        ∧ (s.state = .Connected
            ∨ (s.state = .Connecting
                ∧ item.request.action = "change-public-keys")))
    ∧ (s.currentRequest = none
        ∧ (s.state = .Connected
            ∨ (s.state = .Connecting
                ∧ item.request.action = "change-public-keys"))
        → processRequestQueue s
          = ({ s with currentRequest := some item, requestQueue := rest },
              [.transportRequest item.request]))
    ∧ (∀ (r : KWRequest) (id : Nat),
        (enqueueRequest s r id).requestQueue
          = s.requestQueue ++ [{ request := r, id := id }])
    ∧ inFlightCount (processRequestQueue s).1 ≤ 1 := by
  refine ⟨?_, ?_, fun r id => rfl, inFlightCount_le_one _⟩
  · cases hcur : s.currentRequest with
    | some cr => simp [processRequestQueue, hcur, hq]
    | none =>
      by_cases hact : item.request.action = "change-public-keys" <;>
        cases hst : s.state <;>
          simp [processRequestQueue, hcur, hq, hst, hact,
            sendTransportRequest, htr]
  · rintro ⟨hcur, hcond⟩
    rcases hcond with hst | ⟨hst, hact⟩
    · simp [processRequestQueue, hcur, hq, hst, sendTransportRequest, htr]
    · simp [processRequestQueue, hcur, hq, hst, hact, sendTransportRequest, htr]

/-- Concrete queue item for settling C3. -/
def c3item : RequestQueueItem :=
  { request := { action := "get-logins", tag := 1 }, id := 11 }

/-- Concrete state for settling C3: connected, nothing in flight, one
queued request. -/
def c3s : BackendState :=
  { state := .Connected, connectionError := none, requestQueue := [c3item]
    currentRequest := none, transport := true, timers := [11], waiters := 0 }

/-- Witness for C3: in the connected idle state the single queued request is
dispatched and shifted out of the queue. -/
theorem processRequestQueue_dispatch_spec_witness :
    (c3s.requestQueue = [c3item] ∧ c3s.transport = true)
    ∧ processRequestQueue c3s
        = ({ c3s with currentRequest := some c3item, requestQueue := [] },
            [.transportRequest c3item.request]) :=
  ⟨⟨rfl, rfl⟩,
    (processRequestQueue_dispatch_spec c3s c3item [] rfl rfl).2.1
      ⟨rfl, Or.inl rfl⟩⟩

/-! ### Single-flight connection attempts -/

theorem countConnects_append (a b : List Effect) :
    countConnects (a ++ b) = countConnects a + countConnects b := by
  simp [countConnects, List.filter_append]

theorem countConnects_map_rejected (l : List RequestQueueItem) (err : String) :
    countConnects (List.map (fun it => Effect.rejected it.id err) l) = 0 := by
  induction l with
  | nil => rfl
  | cons x xs ih => simpa [countConnects, List.filter_cons] using ih

theorem countConnects_rejectPending (s : BackendState) (err : String) :
    countConnects (rejectPendingRequests s err).2 = 0 := by
  unfold rejectPendingRequests
  cases s.currentRequest <;>
    simp [countConnects_append, countConnects_map_rejected, countConnects,
      List.filter_cons]

theorem connectEnter_fresh (s : BackendState) (h1 : s.state ≠ .Connected)
    (h2 : s.state ≠ .Connecting) :
    (connectEnter s).1.state = .Connecting
    ∧ countConnects (connectEnter s).2 = 1 := by
  have hrj : countConnects (rejectPendingRequests s "Reconnecting").2 = 0 :=
    countConnects_rejectPending s "Reconnecting"
  have hrjst : (rejectPendingRequests s "Reconnecting").1.state = s.state := by
    unfold rejectPendingRequests
    cases s.currentRequest <;> rfl
  unfold connectEnter
  rw [if_neg h1, if_neg h2]
  constructor
  · simp [setState, hrjst, h2]
  · rw [countConnects_append, countConnects_append, hrj]
    have hset : countConnects
        (setState { (rejectPendingRequests s "Reconnecting").1 with
                    connectionError := none } .Connecting).2 = 0 := by
      unfold setState
      split <;> simp [countConnects, List.filter_cons]
    rw [hset]
    rfl

theorem connectEnter_joins (s : BackendState) (h : s.state = .Connecting) :
    connectEnter s = ({ s with waiters := s.waiters + 1 }, []) := by
  unfold connectEnter
  rw [if_neg (by simp [h]), if_pos h]

theorem connectMany_connecting (n : Nat) :
    ∀ s : BackendState, s.state = .Connecting →
      countConnects (connectMany s n).2 = 0 := by
  induction n with
  | zero => intro s _; rfl
  | succ k ih =>
    intro s h
    have hj := connectEnter_joins s h
    simp only [connectMany, hj]
    have : ({ s with waiters := s.waiters + 1 } : BackendState).state
        = ConnState.Connecting := h
    simpa [countConnects_append, countConnects] using ih _ this

/-- Number of waiters notified with outcome `err` in an effect list. -/
def countWaiterNotified (l : List Effect) (err : Option String) : Nat :=
  (l.filter (fun e => e = .waiterNotified err)).length

theorem countWaiterNotified_append (a b : List Effect) (err : Option String) :
    countWaiterNotified (a ++ b) err
      = countWaiterNotified a err + countWaiterNotified b err := by
  simp [countWaiterNotified, List.filter_append]

theorem countWaiterNotified_replicate_eq (n : Nat) (err : Option String) :
    countWaiterNotified (List.replicate n (.waiterNotified err)) err = n := by
  induction n with
  | zero => rfl
  | succ k ih =>
    simpa [countWaiterNotified, List.replicate, List.filter_cons]
      using ih

theorem countWaiterNotified_replicate_ne (n : Nat) (err err' : Option String)
    (h : err' ≠ err) :
    countWaiterNotified (List.replicate n (.waiterNotified err)) err' = 0 := by
  induction n with
  | zero => rfl
  | succ k ih =>
    simpa [countWaiterNotified, List.replicate, List.filter_cons, Ne.symm h]
      using ih

theorem countWaiterNotified_setState (s : BackendState) (st : ConnState)
    (err : Option String) :
    countWaiterNotified (setState s st).2 err = 0 := by
  unfold setState
  split <;> simp [countWaiterNotified, List.filter_cons]

/-- C4: calling `connect()` while `Connected` resolves immediately with no
side effect; while `Connecting` it only registers a waiter on the shared
`connect-finished` event, starting no new transport connection or handshake;
any number of `connect()` entries during one attempt triggers exactly one
`Transport.connect`; and when the attempt finishes, every registered waiter
is notified with that one outcome (so all concurrent callers resolve or
reject together). -/
theorem connect_single_attempt (s : BackendState) :
    (s.state = .Connected → connectEnter s = (s, []))
    ∧ (s.state = .Connecting →
        connectEnter s = ({ s with waiters := s.waiters + 1 }, []))
    ∧ (s.state ≠ .Connected → s.state ≠ .Connecting →
        ∀ n : Nat, countConnects (connectMany s (n + 1)).2 = 1)
    ∧ (∀ err : Option String,
        countWaiterNotified (connectFinish s err).2 err = s.waiters
        ∧ ∀ err' : Option String, err' ≠ err →
            countWaiterNotified (connectFinish s err).2 err' = 0) := by
  refine ⟨?_, connectEnter_joins s, ?_, ?_⟩
  · intro h
    unfold connectEnter
    rw [if_pos h]
  · intro h1 h2 n
    obtain ⟨hst, hcount⟩ := connectEnter_fresh s h1 h2
    simp only [connectMany]
    have h0 := connectMany_connecting n (connectEnter s).1 hst
    simp [countConnects_append, hcount, h0]
  · intro err
    cases err with
    | none =>
      constructor
      · simp only [connectFinish]
        rw [countWaiterNotified_append, countWaiterNotified_append,
          countWaiterNotified_setState, countWaiterNotified_replicate_eq]
        simp [countWaiterNotified, List.filter_cons]
      · intro err' hne
        simp only [connectFinish]
        rw [countWaiterNotified_append, countWaiterNotified_append,
          countWaiterNotified_setState,
          countWaiterNotified_replicate_ne _ _ _ hne]
        simp [countWaiterNotified, List.filter_cons]
    | some msg =>
      constructor
      · simp only [connectFinish]
        rw [countWaiterNotified_append, countWaiterNotified_append,
          countWaiterNotified_setState, countWaiterNotified_replicate_eq]
        simp [countWaiterNotified, List.filter_cons]
      · intro err' hne
        simp only [connectFinish]
        rw [countWaiterNotified_append, countWaiterNotified_append,
          countWaiterNotified_setState,
          countWaiterNotified_replicate_ne _ _ _ hne]
        simp [countWaiterNotified, List.filter_cons]

/-- Concrete ready-to-connect state with two registered waiters for settling
C4. -/
def c4s : BackendState :=
  { state := .ReadyToConnect, connectionError := none, requestQueue := []
    currentRequest := none, transport := false, timers := [], waiters := 2 }

/-- Witness for C4: three overlapping `connect()` entries from the
ready-to-connect state invoke `Transport.connect` exactly once, and a
finished attempt notifies both registered waiters with its one outcome. -/
theorem connect_single_attempt_witness :
    countConnects (connectMany c4s 3).2 = 1
    ∧ countWaiterNotified (connectFinish c4s none).2 none = 2
    ∧ countWaiterNotified (connectFinish c4s none).2 (some "x") = 0 :=
  ⟨(connect_single_attempt c4s).2.2.1 (by decide) (by decide) 2,
    ((connect_single_attempt c4s).2.2.2 none).1,
    ((connect_single_attempt c4s).2.2.2 none).2 (some "x") (by decide)⟩

/-! ### Timeouts and late transport messages -/

theorem processRequestQueue_effects_transport (s : BackendState) (e : Effect)
    (he : e ∈ (processRequestQueue s).2) :
    ∃ r, e = Effect.transportRequest r := by
  unfold processRequestQueue at he
  cases hcur : s.currentRequest with
  | some cr => rw [hcur] at he; simp at he
  | none =>
    cases hq : s.requestQueue with
    | nil => rw [hcur, hq] at he; simp at he
    | cons item rest =>
      rw [hcur, hq] at he
      dsimp only at he
      by_cases h1 : s.state = ConnState.Connecting
          ∧ item.request.action ≠ "change-public-keys"
      · rw [if_pos h1] at he; simp at he
      · rw [if_neg h1] at he
        by_cases h2 : s.state ≠ ConnState.Connecting
            ∧ s.state ≠ ConnState.Connected
        · rw [if_pos h2] at he; simp at he
        · rw [if_neg h2] at he
          simp only [sendTransportRequest] at he
          by_cases ht : s.transport
          · rw [if_pos ht] at he
            simp only [List.mem_singleton] at he
            exact ⟨item.request, he⟩
          · rw [if_neg ht] at he; simp at he

/-- C5 (amended): when the in-flight request's timeout fires, exactly that
request is rejected with the timeout error and the in-flight slot is
cleared, while the queued requests are left in the queue untouched; a late
transport message arriving while no request is in flight resolves and
rejects nothing; however, if another request has been dispatched in the
meantime, the late message is matched to — and resolves — that next
in-flight request, because `transportMessage` has no way to correlate a
response with the request it answers (see the counterexample). -/
theorem timeout_firing_spec (s : BackendState) (cr : RequestQueueItem)
    (hcur : s.currentRequest = some cr) (harmed : cr.id ∈ s.timers) :
    timeoutFired s cr.id
      = ({ s with currentRequest := none, timers := s.timers.erase cr.id },
          [.rejected cr.id timeoutErrorMessage])
    ∧ (timeoutFired s cr.id).1.requestQueue = s.requestQueue
    ∧ (∀ (s' : BackendState) (msg : KWResponse), s'.currentRequest = none →
        msg.action = none →
        ∀ (id : Nat) (r : KWResponse) (estr : String),
          Effect.resolved id r ∉ (transportMessage s' msg).2
          ∧ Effect.rejected id estr ∉ (transportMessage s' msg).2)
    ∧ (∀ (s' : BackendState) (msg : KWResponse) (cr' : RequestQueueItem),
        s'.currentRequest = some cr' → msg.action = none →
        Effect.resolved cr'.id msg ∈ (transportMessage s' msg).2) := by
  refine ⟨rfl, rfl, ?_, ?_⟩
  · intro s' msg hc hact id r estr
    have hred : (transportMessage s' msg).2 = (processRequestQueue s').2 := by
      simp [transportMessage, hact, hc]
    constructor
    · intro hmem
      rw [hred] at hmem
      obtain ⟨rr, hrr⟩ := processRequestQueue_effects_transport s' _ hmem
      simp at hrr
    · intro hmem
      rw [hred] at hmem
      obtain ⟨rr, hrr⟩ := processRequestQueue_effects_transport s' _ hmem
      simp at hrr
  · intro s' msg cr' hc hact
    simp [transportMessage, hact, hc]

/-- Initial connected, idle state for the C5 execution. -/
def c5s0 : BackendState :=
  { state := .Connected, connectionError := none, requestQueue := []
    currentRequest := none, transport := true, timers := [], waiters := 0 }

/-- First submitted request of the C5 execution. -/
def c5reqA : KWRequest := { action := "get-logins", tag := 1 }

/-- Second submitted request of the C5 execution. -/
def c5reqB : KWRequest := { action := "get-totp", tag := 2 }

/-- State after request A (id 11) is submitted and dispatched. -/
def c5s1 : BackendState := (requestCall c5s0 c5reqA 11).1

/-- State after A's timeout fires. -/
def c5s2 : BackendState := (timeoutFired c5s1 11).1

/-- State after request B (id 22) is submitted and dispatched. -/
def c5s3 : BackendState := (requestCall c5s2 c5reqB 22).1

/-- The late transport response to request A. -/
def c5late : KWResponse := { action := none, body := 99 }

/-- Counterexample to C5 as stated: request A (id 11) is dispatched and in
flight; its still-armed timeout fires, clearing the slot and rejecting A;
request B (id 22) is then submitted and dispatched; when the late transport
message answering A finally arrives, it is matched to — and resolves — the
next in-flight request B instead of being ignored. -/
theorem timeout_late_message_cex :
    c5s1.currentRequest = some { request := c5reqA, id := 11 }
    ∧ 11 ∈ c5s1.timers
    ∧ (timeoutFired c5s1 11).2 = [.rejected 11 timeoutErrorMessage]
    ∧ c5s3.currentRequest = some { request := c5reqB, id := 22 }
    ∧ Effect.resolved 22 c5late ∈ (transportMessage c5s3 c5late).2 := by
  refine ⟨rfl, by decide, rfl, rfl, by decide⟩

/-- Witness for the amended C5 at the concrete in-flight state `c5s1`:
request A's timeout rejects exactly A, clears the slot and leaves the
(empty) queue as it was. -/
theorem timeout_firing_spec_witness :
    (c5s1.currentRequest = some { request := c5reqA, id := 11 }
      ∧ 11 ∈ c5s1.timers)
    ∧ timeoutFired c5s1 11
        = ({ c5s1 with currentRequest := none
                       timers := c5s1.timers.erase 11 },
            [.rejected 11 timeoutErrorMessage]) :=
  ⟨⟨rfl, by decide⟩,
    (timeout_firing_spec c5s1 { request := c5reqA, id := 11 } rfl (by decide)).1⟩

end KeeWebConnect.Backend
